import Mathlib

/-!
Shallow embedding of the multi-backend request orchestration core of the
AI-Autonomous-Coder repository, together with theorems settling the frozen
claims about it.

Conventions of the embedding:
* JavaScript numbers used as millisecond clocks (`Date.now()`) are modelled
  as integers (`ℤ`); `Math.random()` samples are rationals in `[0, 1)`.
  Every call the source makes to `Date.now()` / `Math.random()` becomes an
  explicit input of the embedded function.
* Fallible code (`throw` / rejected promises) is modelled with
  `Except String`, carrying the thrown message.
* Mutable object state (`this.…`) is threaded explicitly as a state value.
* External effects (a provider's network call, an agent running a task) are
  modelled as function-valued inputs giving each call's outcome.
-/

/-! ## Provider gateway (`src/ai-providers.js`) -/

/-- The six backends constructed in `EnhancedAIProvider`'s constructor. -/
inductive Provider where
  | gemini | openai | claude | groq | huggingface | ollama
deriving DecidableEq, Repr

/-- Static score row of `CostOptimizer.providerCosts`. -/
structure ProviderScores where
  cost : ℚ
  speed : ℚ
  quality : ℚ
deriving DecidableEq, Repr

/-- The source's `0.15` as a rational, written in lowest terms so that the
kernel can evaluate comparisons on it. -/
def qCost015 : ℚ := ⟨3, 20, by norm_num, by norm_num⟩

/-- The source's `0.20` as a rational, in lowest terms. -/
def qCost020 : ℚ := ⟨1, 5, by norm_num, by norm_num⟩

/-- `CostOptimizer.providerCosts`, in object-literal declaration order. -/
def providerCosts : List (Provider × ProviderScores) :=
  [ (Provider.gemini, ⟨0, 8, 9⟩)
  , (Provider.openai, ⟨qCost015, 7, 10⟩)
  , (Provider.claude, ⟨3, 6, 10⟩)
  , (Provider.groq, ⟨qCost020, 10, 7⟩)
  , (Provider.huggingface, ⟨0, 5, 6⟩)
  , (Provider.ollama, ⟨0, 4, 6⟩) ]

/-- First list entry attaining the minimum of `f`, ties resolved to the
earliest entry: the head of a stable ascending sort, as produced by JS
`Array.prototype.sort` with comparator `a - b` on `f`. -/
def firstMinBy (f : ProviderScores → ℚ) (l : List (Provider × ProviderScores))
    (dflt : Provider) : Provider :=
  match l with
  | [] => dflt
  | x :: xs => (xs.foldl (fun best y => if f y.2 < f best.2 then y else best) x).1

/-- First list entry attaining the maximum of `f`, ties resolved to the
earliest entry: the head of a stable descending sort, as produced by JS
`Array.prototype.sort` with comparator `b - a` on `f`. -/
def firstMaxBy (f : ProviderScores → ℚ) (l : List (Provider × ProviderScores))
    (dflt : Provider) : Provider :=
  match l with
  | [] => dflt
  | x :: xs => (xs.foldl (fun best y => if f best.2 < f y.2 then y else best) x).1

/-- `CostOptimizer.getCheapestProvider`. -/
def getCheapestProvider : Provider :=
  firstMinBy (·.cost) providerCosts Provider.gemini

/-- `CostOptimizer.getFastestProvider`. -/
def getFastestProvider : Provider :=
  firstMaxBy (·.speed) providerCosts Provider.gemini

/-- `CostOptimizer.getBestQualityProvider`. -/
def getBestQualityProvider : Provider :=
  firstMaxBy (·.quality) providerCosts Provider.gemini

/-- The option flags `generate` inspects in `selectProvider`. -/
structure GenOptions where
  costOptimized : Bool
  performanceOptimized : Bool
  qualityOptimized : Bool
deriving DecidableEq, Repr

/-- Options object with none of the optimization flags set (`{}` in JS). -/
def defaultOptions : GenOptions := ⟨false, false, false⟩

/-- `EnhancedAIProvider.selectProvider`: pick the primary backend from the
option flags, defaulting to the `currentProvider` field. -/
def selectProvider (opts : GenOptions) (currentProvider : Provider) : Provider :=
  if opts.costOptimized then getCheapestProvider
  else if opts.performanceOptimized then getFastestProvider
  else if opts.qualityOptimized then getBestQualityProvider
  else currentProvider

/-- `EnhancedAIProvider.fallbackChain` as set in the constructor. -/
def fallbackChain : List Provider :=
  [Provider.gemini, Provider.openai, Provider.claude, Provider.groq]

/-- One row of `EnhancedAIProvider.usageStats`. -/
structure UsageStat where
  calls : ℕ
  totalDuration : ℤ
  totalTokens : ℕ
  errors : ℕ
deriving DecidableEq, Repr

/-- Mutable state of an `EnhancedAIProvider` instance: the `currentProvider`
field and the `usageStats` object (`none` = key absent). -/
structure GatewayState where
  currentProvider : Provider
  usageStats : Provider → Option UsageStat

/-- A freshly constructed `EnhancedAIProvider`: `currentProvider = 'gemini'`,
empty `usageStats`. -/
def freshGateway : GatewayState :=
  { currentProvider := Provider.gemini, usageStats := fun _ => none }

/-- `EnhancedAIProvider.trackUsage`: create the row if absent, then bump
`calls`, `totalDuration`, `totalTokens`.  The `errors` field is initialized
to `0` and — exactly as in the source — never incremented. -/
def trackUsage (gw : GatewayState) (p : Provider) (duration : ℤ)
    (responseLength : ℕ) : GatewayState :=
  let s := (gw.usageStats p).getD ⟨0, 0, 0, 0⟩
  { gw with usageStats := fun q =>
      if q = p then
        some { calls := s.calls + 1
             , totalDuration := s.totalDuration + duration
             , totalTokens := s.totalTokens + responseLength
             , errors := s.errors }
      else gw.usageStats q }

/-- The fallback loop in `EnhancedAIProvider.generate`'s catch block: walk
`fallbackChain`, skipping entries equal to the `currentProvider` field,
returning the first success; throw `'All AI providers failed'` if the chain
is exhausted.  `outcome p` is backend `p`'s call result (`none` = it threw),
`elapsed p` is the `Date.now() - startTime` value observed after `p`'s
attempt. -/
def tryFallbacks (gw : GatewayState) (outcome : Provider → Option String)
    (elapsed : Provider → ℤ) : List Provider → Except String String × GatewayState
  | [] => (Except.error "All AI providers failed", gw)
  | p :: rest =>
    if p = gw.currentProvider then tryFallbacks gw outcome elapsed rest
    else
      match outcome p with
      | some r => (Except.ok r, trackUsage gw p (elapsed p) r.length)
      | none => tryFallbacks gw outcome elapsed rest

/-- `EnhancedAIProvider.generate`: try the backend chosen by
`selectProvider`; on success track usage and return, on error fall back via
`tryFallbacks` over `fallbackChain`. -/
def generate (gw : GatewayState) (opts : GenOptions)
    (outcome : Provider → Option String) (elapsed : Provider → ℤ) :
    Except String String × GatewayState :=
  let primary := selectProvider opts gw.currentProvider
  match outcome primary with
  | some r => (Except.ok r, trackUsage gw primary (elapsed primary) r.length)
  | none => tryFallbacks gw outcome elapsed fallbackChain

example : getCheapestProvider = Provider.gemini := by decide
example : getFastestProvider = Provider.groq := by decide
example : getBestQualityProvider = Provider.openai := by decide

/-- Options with only `performanceOptimized` set, making `selectProvider`
pick `groq` while the `currentProvider` field stays `gemini`. -/
def c1Options : GenOptions := ⟨false, true, false⟩

/-- Backend outcomes where only `gemini` succeeds. -/
def c1Outcome : Provider → Option String :=
  fun p => if p = Provider.gemini then some "ok" else none

/-- Claim C1 counterexample: with `performanceOptimized` the primary is
`groq` (not the `currentProvider` field, which stays `gemini`), and the
fallback loop skips `gemini` — the backend that would succeed — while
re-attempting `groq`; `generate` therefore throws `All AI providers failed`
even though a backend in the fallback ordering other than the primary
succeeds.  The loop's skip condition compares against `currentProvider`,
not against the backend actually tried as primary. -/
theorem c1_fallback_skips_currentProvider_not_primary :
    (generate freshGateway c1Options c1Outcome (fun _ => 0)).1 =
        Except.error "All AI providers failed" ∧
      selectProvider c1Options freshGateway.currentProvider = Provider.groq ∧
      c1Outcome Provider.gemini = some "ok" ∧
      Provider.gemini ∈ fallbackChain ∧
      Provider.gemini ≠ Provider.groq :=
  ⟨rfl, rfl, rfl, by decide, by decide⟩

/-- The fallback loop returns the first success among the chain entries
different from the `currentProvider` field, and throws
`All AI providers failed` when they all fail. -/
theorem tryFallbacks_eq_findSome (gw : GatewayState)
    (outcome : Provider → Option String) (elapsed : Provider → ℤ) :
    ∀ l : List Provider,
      (tryFallbacks gw outcome elapsed l).1 =
        match (l.filter (fun p => p ≠ gw.currentProvider)).findSome? outcome with
        | some r => Except.ok r
        | none => Except.error "All AI providers failed" := by
  intro l
  induction l with
  | nil => rfl
  | cons p rest ih =>
    by_cases hp : p = gw.currentProvider
    · simp [tryFallbacks, hp, ih]
    · cases h : outcome p with
      | some r => simp [tryFallbacks, hp, h]
      | none => simp [tryFallbacks, hp, h, ih]

/-- Claim C1 (amended): `generate` returns the result of the first
succeeding backend in the order: selected primary first, then the fallback
chain with every entry equal to the `currentProvider` field removed (the
skip compares against `currentProvider`, which is the backend tried as
primary only under default selection); it throws `All AI providers failed`
exactly when all of those backends fail. -/
theorem c1_generate_first_success_skipping_currentProvider
    (gw : GatewayState) (opts : GenOptions)
    (outcome : Provider → Option String) (elapsed : Provider → ℤ) :
    (generate gw opts outcome elapsed).1 =
      match (selectProvider opts gw.currentProvider ::
          fallbackChain.filter (fun p => p ≠ gw.currentProvider)).findSome?
          outcome with
      | some r => Except.ok r
      | none => Except.error "All AI providers failed" := by
  unfold generate
  cases h : outcome (selectProvider opts gw.currentProvider) with
  | some r => simp [h]
  | none => simp [h, tryFallbacks_eq_findSome]

/-- Claim C2 (code bug): when every backend fails, `generate` throws
`All AI providers failed` and leaves `usageStats` exactly as it was — no
usage record is created or updated for the failed attempts, so no error
count is incremented for any backend (`trackUsage` has no error branch and
is never called on a failed attempt). -/
theorem c2_all_backends_fail_increments_no_error_counts :
    (generate freshGateway defaultOptions (fun _ => none) (fun _ => 0)) =
        (Except.error "All AI providers failed", freshGateway) ∧
      ∀ p : Provider,
        (generate freshGateway defaultOptions (fun _ => none)
            (fun _ => 0)).2.usageStats p = none :=
  ⟨rfl, fun _ => rfl⟩

/-! ## Security manager (`src/security.js`) -/

/-- One entry of `SecurityManager.auditLog`. -/
structure AuditEntry where
  timestamp : ℤ
  action : String
  details : List (String × String)
  id : ℚ
deriving DecidableEq, Repr

/-- Mutable state of a `SecurityManager` instance: the permission map, the
audit log, the per-worker rate-limit timestamp lists (`[]` = key absent)
and the quarantine set. -/
structure SecState where
  permissions : String → List String
  auditLog : List AuditEntry
  rateLimits : String → List ℤ
  quarantine : List String

/-- A freshly constructed `SecurityManager`: everything empty. -/
def freshSecurity : SecState :=
  { permissions := fun _ => []
  , auditLog := []
  , rateLimits := fun _ => []
  , quarantine := [] }

/-- `SecurityManager.hasPermission`. -/
def hasPermission (st : SecState) (agentId permission : String) : Bool :=
  (st.permissions agentId).contains permission

/-- The entry `logAudit` builds: `timestamp = new Date()` and
`id = Date.now() + Math.random()`, where `t` is the millisecond clock
sample and `r` the `Math.random()` sample of this call. -/
def mkAuditEntry (action : String) (details : List (String × String))
    (t : ℤ) (r : ℚ) : AuditEntry :=
  { timestamp := t, action := action, details := details, id := (t : ℚ) + r }

/-- The push-then-trim step of `logAudit`: append the entry, and if the log
now holds more than 1000 entries keep only the last 1000 (`slice(-1000)`). -/
def auditPush (log : List AuditEntry) (e : AuditEntry) : List AuditEntry :=
  let l := log ++ [e]
  if 1000 < l.length then l.drop (l.length - 1000) else l

/-- `SecurityManager.logAudit`. -/
def logAudit (st : SecState) (action : String)
    (details : List (String × String)) (t : ℤ) (r : ℚ) : SecState :=
  { st with auditLog := auditPush st.auditLog (mkAuditEntry action details t r) }

/-- Pop one `(Date.now(), Math.random())` sample off the supplied sample
stream, defaulting to `(0, 0)` when it is exhausted. -/
def popSample : List (ℤ × ℚ) → (ℤ × ℚ) × List (ℤ × ℚ)
  | [] => ((0, 0), [])
  | s :: rest => (s, rest)

/-- Whether `pat` is a prefix of the character list. -/
def startsWithL : List Char → List Char → Bool
  | _, [] => true
  | [], _ :: _ => false
  | a :: as, b :: bs => a = b && startsWithL as bs

/-- Whether `pat` occurs as a contiguous substring. -/
def containsSubL : List Char → List Char → Bool
  | [], pat => startsWithL [] pat
  | c :: rest, pat => startsWithL (c :: rest) pat || containsSubL rest pat

/-- Replace the first occurrence of `pat` by `rep`: the behavior of JS
`String.replace` with a non-global literal pattern.  If `pat` does not
occur, the text is returned unchanged. -/
def replaceFirstL : List Char → List Char → List Char → List Char
  | [], pat, rep => if startsWithL [] pat then rep else []
  | c :: rest, pat, rep =>
    if startsWithL (c :: rest) pat then rep ++ (c :: rest).drop pat.length
    else c :: replaceFirstL rest pat rep

/-- Scan for the first `*/`, returning the remainder after it. -/
def dropToClose : List Char → Option (List Char)
  | [] => none
  | c :: rest =>
    if c = '*' ∧ rest.head? = some '/' then some rest.tail
    else dropToClose rest

/-- Worker for the global non-greedy block-comment strip, structurally
recursive on a fuel bound (any fuel at or above the list length gives the
untruncated semantics): repeatedly delete from each comment opener to the
earliest following closer; an opener with no later closer matches nothing
and the rest of the text is kept. -/
def stripBlockAux : ℕ → List Char → List Char
  | _, [] => []
  | 0, l => l
  | fuel + 1, c :: rest =>
    if c = '/' ∧ rest.head? = some '*' then
      match dropToClose rest.tail with
      | some rest' => stripBlockAux fuel rest'
      | none => c :: rest
    else c :: stripBlockAux fuel rest

/-- The block-comment strip `replace` of the pattern a slash, a star, a
lazy any-run, a star, a slash (global flag). -/
def stripBlockComments (l : List Char) : List Char :=
  stripBlockAux l.length l

/-- Worker for the line-comment strip, structurally recursive on a fuel
bound: on each line, delete from the first `//` to the end of the line;
the line terminator itself is kept.  Line terminators are modelled as
`\n` and `\r`. -/
def stripLineAux : ℕ → List Char → List Char
  | _, [] => []
  | 0, l => l
  | fuel + 1, c :: rest =>
    if c = '/' ∧ rest.head? = some '/' then
      stripLineAux fuel (rest.dropWhile (fun ch => ¬ (ch = '\n' ∨ ch = '\r')))
    else c :: stripLineAux fuel rest

/-- The line-comment strip `replace` of double-slash-to-line-end (global
and multiline flags). -/
def stripLineComments (l : List Char) : List Char :=
  stripLineAux l.length l

/-- `sandboxConfig.blockedPatterns`: each of the six regexes is a literal
text pattern (their only metacharacter is an escaped parenthesis). -/
def blockedPatterns : List String :=
  ["eval(", "Function(", "setTimeout(", "setInterval(", "import(", "require("]

/-- One iteration of the `blockedPatterns.forEach` body in `sanitizeCode`:
if the pattern occurs, write one `dangerous_code_detected` audit entry and
replace the pattern's first occurrence (the regexes are not global) with
the marker `/* BLOCKED */`. -/
def sanitizeStep (acc : List Char × SecState × List (ℤ × ℚ)) (pat : String) :
    List Char × SecState × List (ℤ × ℚ) :=
  if containsSubL acc.1 pat.data then
    ( replaceFirstL acc.1 pat.data "/* BLOCKED */".data
    , logAudit acc.2.1 "dangerous_code_detected" [("pattern", pat)]
        (popSample acc.2.2).1.1 (popSample acc.2.2).1.2
    , (popSample acc.2.2).2 )
  else acc

/-- `SecurityManager.sanitizeCode`: run the deny-list rewrite over all six
patterns in order, then strip block comments, then strip line comments. -/
def sanitizeCode (st : SecState) (code : String) (samples : List (ℤ × ℚ)) :
    String × SecState × List (ℤ × ℚ) :=
  let r := blockedPatterns.foldl sanitizeStep (code.data, st, samples)
  (String.mk (stripLineComments (stripBlockComments r.1)), r.2.1, r.2.2)

/-- `SecurityManager.checkRateLimit`: prune the worker's timestamps to the
sliding 60 s window, store the pruned list, reject (`false`, plus one
`rate_limit_exceeded` audit entry) when 100 or more remain, otherwise
append `now` to the stored list and admit (`true`).  `now` is this call's
`Date.now()` sample; `t`, `r` are the audit entry's samples. -/
def checkRateLimit (st : SecState) (agentId : String) (now : ℤ)
    (t : ℤ) (r : ℚ) : Bool × SecState :=
  let valid := (st.rateLimits agentId).filter (fun tm => now - tm < 60000)
  if 100 ≤ valid.length then
    let st1 := { st with
      rateLimits := fun a => if a = agentId then valid else st.rateLimits a }
    (false, logAudit st1 "rate_limit_exceeded" [("agentId", agentId)] t r)
  else
    (true, { st with
      rateLimits := fun a =>
        if a = agentId then valid ++ [now] else st.rateLimits a })

/-- `SecurityManager.executeInSandbox`.  The checks happen in source order:
execute permission, then quarantine, then sanitization, then rate limit,
then the sandboxed run itself.  `run` models
`executeWithTimeout(runInSandbox(sanitizedCode, sandbox))` — the abstract
outcome of running the sanitized code, with timeouts appearing as
`Except.error "Execution timeout"`.  `now` is `checkRateLimit`'s
`Date.now()` sample and `samples` feeds every internal `logAudit`. -/
def executeInSandbox (st : SecState) (code : String) (agentId : String)
    (run : String → Except String String) (now : ℤ)
    (samples : List (ℤ × ℚ)) : Except String String × SecState :=
  if hasPermission st agentId "execute" = false then
    (Except.error "Agent does not have execution permission", st)
  else if st.quarantine.contains agentId then
    (Except.error "Agent is quarantined", st)
  else
    let sanOut := sanitizeCode st code samples
    let s1 := (popSample sanOut.2.2).1
    let rateOut := checkRateLimit sanOut.2.1 agentId now s1.1 s1.2
    if rateOut.1 = false then (Except.error "Rate limit exceeded", rateOut.2)
    else
      let s2 := (popSample (popSample sanOut.2.2).2).1
      match run sanOut.1 with
      | Except.ok res =>
        ( Except.ok res
        , logAudit rateOut.2 "code_executed"
            [("agentId", agentId), ("success", "true")] s2.1 s2.2 )
      | Except.error e =>
        ( Except.error e
        , logAudit rateOut.2 "code_execution_failed"
            [("agentId", agentId), ("error", e)] s2.1 s2.2 )

/-- A `SecurityManager` state whose quarantine set holds worker `w`, which
has been granted no permission at all. -/
def c3State : SecState := { freshSecurity with quarantine := ["w"] }

/-- Claim C3 counterexample: a worker that is both quarantined and lacks
the execute capability fails with the permission error, not the quarantine
error — the source checks `hasPermission` before the quarantine set, so
the quarantine check is not first. -/
theorem c3_permission_error_precedes_quarantine_error :
    (executeInSandbox c3State "x" "w" (fun _ => Except.ok "") 0 []).1 =
        Except.error "Agent does not have execution permission" ∧
      c3State.quarantine.contains "w" = true ∧
      hasPermission c3State "w" "execute" = false :=
  ⟨rfl, by decide, by decide⟩

/-- Claim C3 (amended): the sandboxed invocation performs its checks in the
order permission, then quarantine, then input sanitization, then rate
limit, then execution; the first failing check is terminal.  A worker
without the execute capability fails with the permission error before the
quarantine check and with no state change; a quarantined worker holding
the capability fails with the quarantine error with no state change; when
both pass, sanitization runs (its audit writes land in the state) before
the rate-limit check, whose failure is terminal with the rate error; when
every check passes, the sanitized text is what gets executed. -/
theorem c3_sandbox_check_order (st : SecState) (code agentId : String)
    (run : String → Except String String) (now : ℤ)
    (samples : List (ℤ × ℚ)) :
    (hasPermission st agentId "execute" = false →
      executeInSandbox st code agentId run now samples =
        (Except.error "Agent does not have execution permission", st)) ∧
    (hasPermission st agentId "execute" = true →
      st.quarantine.contains agentId = true →
      executeInSandbox st code agentId run now samples =
        (Except.error "Agent is quarantined", st)) ∧
    (hasPermission st agentId "execute" = true →
      st.quarantine.contains agentId = false →
      (checkRateLimit (sanitizeCode st code samples).2.1 agentId now
          (popSample (sanitizeCode st code samples).2.2).1.1
          (popSample (sanitizeCode st code samples).2.2).1.2).1 = false →
      executeInSandbox st code agentId run now samples =
        (Except.error "Rate limit exceeded",
          (checkRateLimit (sanitizeCode st code samples).2.1 agentId now
            (popSample (sanitizeCode st code samples).2.2).1.1
            (popSample (sanitizeCode st code samples).2.2).1.2).2)) ∧
    (hasPermission st agentId "execute" = true →
      st.quarantine.contains agentId = false →
      (checkRateLimit (sanitizeCode st code samples).2.1 agentId now
          (popSample (sanitizeCode st code samples).2.2).1.1
          (popSample (sanitizeCode st code samples).2.2).1.2).1 = true →
      (executeInSandbox st code agentId run now samples).1 =
        run (sanitizeCode st code samples).1) := by
  refine ⟨fun h1 => ?_, fun h1 h2 => ?_, fun h1 h2 h3 => ?_, fun h1 h2 h3 => ?_⟩
  · simp [executeInSandbox, h1]
  · have h2' : agentId ∈ st.quarantine := by simpa using h2
    simp [executeInSandbox, h1, h2']
  · have h2' : agentId ∉ st.quarantine := by simpa using h2
    simp [executeInSandbox, h1, h2', h3]
  · have h2' : agentId ∉ st.quarantine := by simpa using h2
    simp only [executeInSandbox, h1, h2', h3]
    simp [h3]
    cases run (sanitizeCode st code samples).1 <;> simp [h2']

/-- A `SecurityManager` state where worker `w` holds the execute
capability and nothing blocks it. -/
def c3PassState : SecState :=
  { freshSecurity with
      permissions := fun a => if a = "w" then ["execute"] else [] }

/-- Witness for the amended C3 theorem at a concrete invocation: all
checks pass and the worker executes the sanitized input. -/
theorem c3_sandbox_check_order_witness :
    (executeInSandbox c3PassState "abc" "w" (fun s => Except.ok s) 0 []).1 =
      Except.ok (sanitizeCode c3PassState "abc" []).1 :=
  (c3_sandbox_check_order c3PassState "abc" "w" (fun s => Except.ok s) 0
    []).2.2.2 (by decide) (by decide) (by decide)

/-- Claim C4: `checkRateLimit` prunes the worker's stored timestamps to
those strictly inside the 60000 ms window before counting, admits exactly
when fewer than 100 remain (equivalently, rejects exactly when 100 or more
remain), and stores the pruned list plus — only on admission — the current
timestamp.  Everything the limiter does is determined by this: in
particular a 101st call whose 100 predecessors are all still inside the
window is rejected, and once enough old timestamps age out a call is
admitted again. -/
theorem c4_rate_limit_sliding_window (st : SecState) (agentId : String)
    (now t : ℤ) (r : ℚ) :
    (checkRateLimit st agentId now t r).1 =
        decide (((st.rateLimits agentId).filter
          (fun tm => now - tm < 60000)).length < 100) ∧
    (checkRateLimit st agentId now t r).2.rateLimits agentId =
        (if ((st.rateLimits agentId).filter
            (fun tm => now - tm < 60000)).length < 100
         then (st.rateLimits agentId).filter
            (fun tm => now - tm < 60000) ++ [now]
         else (st.rateLimits agentId).filter
            (fun tm => now - tm < 60000)) := by
  by_cases h : 100 ≤ ((st.rateLimits agentId).filter
      (fun tm => now - tm < 60000)).length
  · have h' : ¬ ((st.rateLimits agentId).filter
        (fun tm => now - tm < 60000)).length < 100 := by omega
    simp [checkRateLimit, logAudit, h, h']
  · have h' : ((st.rateLimits agentId).filter
        (fun tm => now - tm < 60000)).length < 100 := by omega
    simp [checkRateLimit, h, h']

/-- Claim C10: a rejected call consumes no budget — when the limiter
rejects, the stored state for that worker is exactly the pruned timestamp
list (nothing appended), and every other worker's state is untouched, so
repeated rejected calls never push the re-admission time out. -/
theorem c10_rejected_call_consumes_no_budget (st : SecState)
    (agentId : String) (now t : ℤ) (r : ℚ)
    (h : 100 ≤ ((st.rateLimits agentId).filter
      (fun tm => now - tm < 60000)).length) :
    (checkRateLimit st agentId now t r).1 = false ∧
    (checkRateLimit st agentId now t r).2.rateLimits agentId =
      (st.rateLimits agentId).filter (fun tm => now - tm < 60000) ∧
    ∀ b : String, b ≠ agentId →
      (checkRateLimit st agentId now t r).2.rateLimits b =
        st.rateLimits b := by
  have h' : ¬ ((st.rateLimits agentId).filter
      (fun tm => now - tm < 60000)).length < 100 := by omega
  refine ⟨?_, ?_, ?_⟩
  · simp [checkRateLimit, h, h']
  · simp [checkRateLimit, logAudit, h, h']
  · intro b hb
    simp [checkRateLimit, logAudit, h, h', hb]

/-- A `SecurityManager` state where worker `w` already holds 100 stored
call timestamps. -/
def c10State : SecState :=
  { freshSecurity with
      rateLimits := fun a => if a = "w" then List.replicate 100 0 else [] }

/-- Witness for C10 at a concrete state: with 100 in-window timestamps the
call is rejected and the stored list is exactly the pruned (here:
unchanged) 100 timestamps. -/
theorem c10_rejected_call_consumes_no_budget_witness :
    (checkRateLimit c10State "w" 0 0 0).1 = false ∧
    (checkRateLimit c10State "w" 0 0 0).2.rateLimits "w" =
      List.replicate 100 0 := by
  have h := c10_rejected_call_consumes_no_budget c10State "w" 0 0 0 (by decide)
  exact ⟨h.1, by rw [h.2.1]; decide⟩

/-- Folding `auditPush` from any log within the bound keeps exactly the
most recent 1000 entries of the whole append sequence, in order. -/
theorem foldl_auditPush (es : List AuditEntry) :
    ∀ acc : List AuditEntry, acc.length ≤ 1000 →
      es.foldl auditPush acc = (acc ++ es).drop ((acc ++ es).length - 1000) := by
  induction es with
  | nil =>
    intro acc h
    have h0 : acc.length - 1000 = 0 := by omega
    simp [h0]
  | cons e es ih =>
    intro acc h
    show es.foldl auditPush (auditPush acc e) = _
    by_cases hlen : acc.length < 1000
    · have hc : ¬ 1000 < (acc ++ [e]).length := by
        simp only [List.length_append, List.length_cons, List.length_nil]
        omega
      have hp : auditPush acc e = acc ++ [e] := by
        show (if 1000 < (acc ++ [e]).length then
            (acc ++ [e]).drop ((acc ++ [e]).length - 1000)
          else acc ++ [e]) = acc ++ [e]
        rw [if_neg hc]
      have hlen1 : (acc ++ [e]).length ≤ 1000 := by
        simp only [List.length_append, List.length_cons, List.length_nil]
        omega
      rw [hp]
      rw [ih (acc ++ [e]) hlen1]
      simp [List.append_assoc]
    · have hlen' : acc.length = 1000 := by omega
      have hc : 1000 < (acc ++ [e]).length := by
        simp only [List.length_append, List.length_cons, List.length_nil]
        omega
      have hcount : (acc ++ [e]).length - 1000 = 1 := by
        simp only [List.length_append, List.length_cons, List.length_nil]
        omega
      have hp : auditPush acc e = (acc ++ [e]).drop 1 := by
        show (if 1000 < (acc ++ [e]).length then
            (acc ++ [e]).drop ((acc ++ [e]).length - 1000)
          else acc ++ [e]) = (acc ++ [e]).drop 1
        rw [if_pos hc, hcount]
      have hlen2 : ((acc ++ [e]).drop 1).length ≤ 1000 := by
        simp only [List.length_drop, List.length_append, List.length_cons,
          List.length_nil]
        omega
      rw [hp]
      rw [ih ((acc ++ [e]).drop 1) hlen2]
      have hone : (1 : ℕ) ≤ (acc ++ [e]).length := by
        simp only [List.length_append, List.length_cons, List.length_nil]
        omega
      have hsplit : ((acc ++ [e]).drop 1) ++ es = (acc ++ e :: es).drop 1 := by
        have harr : acc ++ e :: es = (acc ++ [e]) ++ es := by
          simp [List.append_assoc]
        rw [harr, List.drop_append_of_le_length hone]
      rw [hsplit]
      rw [List.drop_drop]
      have hcount2 : 1 + (((acc ++ e :: es).drop 1).length - 1000)
          = (acc ++ e :: es).length - 1000 := by
        simp only [List.length_drop, List.length_append, List.length_cons,
          List.length_nil]
        omega
      rw [hcount2]

/-- Threading a sequence of `logAudit` calls through the state only folds
`auditPush` over the audit log. -/
theorem foldl_logAudit_auditLog
    (xs : List (String × List (String × String) × ℤ × ℚ)) :
    ∀ st : SecState,
      (xs.foldl (fun s x => logAudit s x.1 x.2.1 x.2.2.1 x.2.2.2) st).auditLog
        = (xs.map (fun x => mkAuditEntry x.1 x.2.1 x.2.2.1 x.2.2.2)).foldl
            auditPush st.auditLog := by
  induction xs with
  | nil => intro st; rfl
  | cons x xs ih =>
    intro st
    simp only [List.foldl_cons, List.map_cons]
    rw [ih]
    rfl

/-- Claim C7: after any sequence of audit appends (each carrying its
action, detail payload and clock/random samples) starting from a fresh
manager, the audit log holds exactly the most recent
`min(total, 1000)` entries in append order — the oldest entries are the
ones dropped — and its length never exceeds 1000. -/
theorem c7_audit_log_bounded_fifo
    (xs : List (String × List (String × String) × ℤ × ℚ)) :
    (xs.foldl (fun s x => logAudit s x.1 x.2.1 x.2.2.1 x.2.2.2)
        freshSecurity).auditLog =
      (xs.map (fun x => mkAuditEntry x.1 x.2.1 x.2.2.1 x.2.2.2)).drop
        (xs.length - 1000) ∧
    (xs.foldl (fun s x => logAudit s x.1 x.2.1 x.2.2.1 x.2.2.2)
        freshSecurity).auditLog.length ≤ 1000 := by
  have hlog := foldl_logAudit_auditLog xs freshSecurity
  have hfold := foldl_auditPush
    (xs.map (fun x => mkAuditEntry x.1 x.2.1 x.2.2.1 x.2.2.2)) []
    (by simp)
  constructor
  · rw [hlog]
    show _ = (xs.map (fun x => mkAuditEntry x.1 x.2.1 x.2.2.1 x.2.2.2)).drop
      (xs.length - 1000)
    rw [show freshSecurity.auditLog = ([] : List AuditEntry) from rfl, hfold]
    simp
  · rw [hlog]
    rw [show freshSecurity.auditLog = ([] : List AuditEntry) from rfl, hfold]
    simp only [List.nil_append, List.length_drop, List.length_map]
    omega

/-- Claim C9 counterexample: two successive audit appends falling in the
same clock millisecond (`Date.now()` returns 1000 twice) with legitimate
`Math.random()` samples 9/10 then 1/10 produce a second id strictly
smaller than the first — the audit id is not monotonic over the append
order. -/
theorem c9_audit_id_not_monotonic_same_millisecond :
    (0 : ℚ) ≤ 9/10 ∧ (9/10 : ℚ) < 1 ∧ (0 : ℚ) ≤ 1/10 ∧ (1/10 : ℚ) < 1 ∧
    ¬ ((mkAuditEntry "first" [] 1000 (9/10)).id
        < (mkAuditEntry "second" [] 1000 (1/10)).id) := by
  refine ⟨by norm_num, by norm_num, by norm_num, by norm_num, ?_⟩
  simp only [mkAuditEntry]
  norm_num

/-- Claim C9 (amended): the audit entry id `Date.now() + Math.random()` is
strictly increasing across appends whose clock samples are strictly
increasing (at least one millisecond apart); only appends within the same
millisecond can violate monotonicity. -/
theorem c9_audit_id_monotonic_across_milliseconds
    (t1 t2 : ℤ) (r1 r2 : ℚ) (a1 a2 : String)
    (d1 d2 : List (String × String))
    (h1 : 0 ≤ r1) (h2 : r1 < 1) (h3 : 0 ≤ r2) (h4 : r2 < 1)
    (ht : t1 < t2) :
    (mkAuditEntry a1 d1 t1 r1).id < (mkAuditEntry a2 d2 t2 r2).id := by
  simp only [mkAuditEntry]
  have hc : (t1 : ℚ) + 1 ≤ (t2 : ℚ) := by
    have : (t1 + 1 : ℤ) ≤ t2 := by omega
    exact_mod_cast this
  linarith

/-- Witness for the amended C9 theorem at concrete samples one
millisecond apart. -/
theorem c9_audit_id_monotonic_witness :
    (mkAuditEntry "a" [] 0 0).id < (mkAuditEntry "b" [] 1 0).id :=
  c9_audit_id_monotonic_across_milliseconds 0 1 0 0 "a" "b" [] []
    (by norm_num) (by norm_num) (by norm_num) (by norm_num) (by norm_num)

/-! ## AgentTask graph builder and orchestrator (`src/autonomous-agents.js`) -/

/-- A task as emitted by `ProjectPlannerAgent.createTaskBreakdown`. -/
structure AgentTask where
  id : String
  name : String
  description : String
  type : String
  priority : String
  estimatedTime : String
  dependencies : List String
deriving DecidableEq, Repr

/-- One declared feature of a requirements document; optional fields are
`none` when absent. -/
structure Feature where
  name : String
  description : String
  priority : Option String
  dependencies : Option (List String)
  estimatedTime : Option String
deriving DecidableEq, Repr

/-- JS `a || b` for a string-valued property: the default applies when the
property is absent or is the empty string (the falsy string). -/
def jsOrString (o : Option String) (dflt : String) : String :=
  match o with
  | none => dflt
  | some s => if s = "" then dflt else s

/-- Collapse every maximal whitespace run into a single `-`
(`replace` of one-or-more-whitespace, global); the flag records whether
the current run has already emitted its dash. -/
def collapseWsAux : Bool → List Char → List Char
  | _, [] => []
  | prevWs, c :: cs =>
    if c.isWhitespace then
      if prevWs then collapseWsAux true cs
      else '-' :: collapseWsAux true cs
    else c :: collapseWsAux false cs

/-- The feature-task id transform `name.toLowerCase()` followed by the
whitespace-run collapse. -/
def slugify (s : String) : String :=
  String.mk (collapseWsAux false (s.data.map Char.toLower))

/-- The fixed setup task pushed first. -/
def setupTask : AgentTask :=
  { id := "setup-project", name := "Project Setup"
  , description := "Initialize project structure and configuration"
  , type := "setup", priority := "high", estimatedTime := "30 minutes"
  , dependencies := [] }

/-- The task pushed for one declared feature. -/
def mkFeatureTask (f : Feature) : AgentTask :=
  { id := "feature-" ++ slugify f.name
  , name := "Implement " ++ f.name
  , description := f.description
  , type := "feature"
  , priority := jsOrString f.priority "medium"
  , estimatedTime := jsOrString f.estimatedTime "2 hours"
  , dependencies := f.dependencies.getD [] }

/-- The fixed testing task, depending on the setup task. -/
def testingTask : AgentTask :=
  { id := "testing", name := "Testing & Quality Assurance"
  , description := "Implement comprehensive testing suite"
  , type := "testing", priority := "high", estimatedTime := "1 hour"
  , dependencies := ["setup-project"] }

/-- The fixed deployment task, depending on the testing task. -/
def deploymentTask : AgentTask :=
  { id := "deployment", name := "Deployment"
  , description := "Deploy application to production"
  , type := "deployment", priority := "medium"
  , estimatedTime := "30 minutes", dependencies := ["testing"] }

/-- `ProjectPlannerAgent.createTaskBreakdown`: push the setup task, one
task per declared feature, then the testing and deployment tasks.  The
feature list is `none` when the requirements document lacks it, and the
source then throws (`for … of undefined` is a TypeError), modelled as the
error value. -/
def createTaskBreakdown (features : Option (List Feature)) :
    Except String (List AgentTask) :=
  match features with
  | none => Except.error "features is not iterable"
  | some fs =>
    Except.ok (setupTask :: fs.map mkFeatureTask
      ++ [testingTask, deploymentTask])

/-- One `taskExecution` record of `AgentOrchestrator.executeTask`; the
`Date` wall-clock fields are elided. -/
structure TaskExecution where
  id : String
  name : String
  status : String
  result : Option String
  error : Option String
deriving DecidableEq, Repr

/-- The run-level `execution` object of
`AgentOrchestrator.executeProject`; wall-clock fields elided. -/
structure Execution where
  tasks : List TaskExecution
  status : String
deriving DecidableEq, Repr

/-- `AgentOrchestrator.executeTask`: dispatch the task to its agent
(`agentRun` models `getAgentForTask(task).executeTask(task, plan)`), catch
any raise, and record a completed or failed task execution; no exception
escapes. -/
def executeTask (agentRun : AgentTask → Except String String) (task : AgentTask) :
    TaskExecution :=
  match agentRun task with
  | Except.ok r =>
    { id := task.id, name := task.name, status := "completed"
    , result := some r, error := none }
  | Except.error e =>
    { id := task.id, name := task.name, status := "failed"
    , result := none, error := some e }

/-- `AgentOrchestrator.executeProject`: run every task of the plan in
order through `executeTask` — whose catch absorbs task failures — and mark
the run `completed`.  The `failed` branch of the source's try/catch is
reachable only if something outside per-task execution raises, and
nothing in the loop body can (`executeTask` is total and
`updateProjectContext` is a no-op). -/
def executeProject (agentRun : AgentTask → Except String String)
    (tasks : List AgentTask) : Execution :=
  { tasks := tasks.map (executeTask agentRun), status := "completed" }

/-- Claim C5: a raising worker yields a failed record for its task while
the run continues: the execution is `completed`, holds one record per task
in order, and each record is `failed` with the raised message exactly when
that task's worker raised, `completed` with no error otherwise. -/
theorem c5_task_failures_absorbed
    (agentRun : AgentTask → Except String String) (tasks : List AgentTask) :
    (executeProject agentRun tasks).status = "completed" ∧
    (executeProject agentRun tasks).tasks.map
        (fun r => (r.id, r.status, r.error)) =
      tasks.map (fun task =>
        ( task.id
        , match agentRun task with
          | Except.ok _ => ("completed", (none : Option String))
          | Except.error e => ("failed", some e) )) := by
  refine ⟨rfl, ?_⟩
  show (tasks.map (executeTask agentRun)).map
    (fun r => (r.id, r.status, r.error)) = _
  rw [List.map_map]
  apply List.map_congr_left
  intro a _
  cases h : agentRun a <;> simp [executeTask, Function.comp, h]

/-- Claim C6 counterexample: a requirements document with a missing
feature list makes the builder fail (iterating an absent list throws in
the source); it is not treated as a zero-feature document. -/
theorem c6_missing_feature_list_is_error :
    createTaskBreakdown none = Except.error "features is not iterable" ∧
    createTaskBreakdown none ≠ createTaskBreakdown (some []) :=
  ⟨rfl, fun h => by simp [createTaskBreakdown] at h⟩

/-- Claim C6 (amended): given a present feature list the builder emits, in
order, one setup task with no dependencies, one feature task per declared
feature (with the declared dependencies or none, and the declared priority
or `medium`), one testing task depending on the setup task and one
deployment task depending on the testing task — so 3 features yield
exactly 6 tasks; but a missing feature list is an error, not an empty
graph. -/
theorem c6_task_breakdown_shape (fs : List Feature) :
    createTaskBreakdown (some fs) =
      Except.ok (setupTask :: fs.map mkFeatureTask
        ++ [testingTask, deploymentTask]) ∧
    (setupTask :: fs.map mkFeatureTask
        ++ [testingTask, deploymentTask]).length = fs.length + 3 ∧
    (setupTask :: fs.map mkFeatureTask
          ++ [testingTask, deploymentTask]).map AgentTask.type
      = "setup" :: fs.map (fun _ => "feature") ++ ["testing", "deployment"] ∧
    (setupTask :: fs.map mkFeatureTask
          ++ [testingTask, deploymentTask]).map AgentTask.dependencies
      = [] :: fs.map (fun f => f.dependencies.getD [])
          ++ [["setup-project"], ["testing"]] ∧
    (setupTask :: fs.map mkFeatureTask
          ++ [testingTask, deploymentTask]).map AgentTask.priority
      = "high" :: fs.map (fun f => jsOrString f.priority "medium")
          ++ ["high", "medium"] ∧
    (setupTask :: fs.map mkFeatureTask
          ++ [testingTask, deploymentTask]).map AgentTask.id
      = "setup-project" :: fs.map (fun f => "feature-" ++ slugify f.name)
          ++ ["testing", "deployment"] := by
  refine ⟨rfl, ?_, ?_, ?_, ?_, ?_⟩
  · simp only [List.length_cons, List.length_append, List.length_map,
      List.length_nil]
  · simp only [List.map_cons, List.map_append, List.map_map]
    rw [List.map_congr_left
        (fun (f : Feature) _ =>
          (rfl : (AgentTask.type ∘ mkFeatureTask) f = "feature"))]
    rfl
  · simp only [List.map_cons, List.map_append, List.map_map]
    rw [List.map_congr_left
        (fun (f : Feature) _ =>
          (rfl : (AgentTask.dependencies ∘ mkFeatureTask) f
            = f.dependencies.getD []))]
    rfl
  · simp only [List.map_cons, List.map_append, List.map_map]
    rw [List.map_congr_left
        (fun (f : Feature) _ =>
          (rfl : (AgentTask.priority ∘ mkFeatureTask) f
            = jsOrString f.priority "medium"))]
    rfl
  · simp only [List.map_cons, List.map_append, List.map_map]
    rw [List.map_congr_left
        (fun (f : Feature) _ =>
          (rfl : (AgentTask.id ∘ mkFeatureTask) f
            = "feature-" ++ slugify f.name))]
    rfl

/-- Claim C8 (code bug): sanitizing `eval(a);eval(b)` returns
`a);eval(b)`.  The non-global pattern replaces only the first `eval(`,
and the inserted inert marker `/* BLOCKED */` is itself removed by the
comment-stripping pass that follows, so the returned text still contains
the deny-listed pattern `eval(` and the claimed guarantee — no occurrence
of any deny-listed pattern in the output — fails. -/
theorem c8_sanitize_leaves_denylisted_pattern :
    (sanitizeCode freshSecurity "eval(a);eval(b)" []).1 = "a);eval(b)" ∧
    containsSubL (sanitizeCode freshSecurity "eval(a);eval(b)" []).1.data
      "eval(".data = true ∧
    "eval(" ∈ blockedPatterns :=
  ⟨by decide, by decide, by decide⟩
